import Mathlib

/-!
# Verification of the incus-migrate migration session orchestrator

This development shallowly embeds `cmd/incus-migrate/main_migrate.go`.
External effects (syscalls, remote API calls, subprocesses, prompts) are
modelled by an explicit environment of outcomes; each modelled function
returns its Go result together with a trace of the externally visible
actions it performed, in order.  A small filesystem/mount interpreter
gives semantics to the traces where a claim needs it.
-/

namespace IncusMigrate

/-- Paths handed to the mount/file syscalls are represented as lists of
path components (so `/tmp/x/root.img` is `["tmp", "x", "root.img"]`),
which keeps reasoning about path containment purely structural. -/
abbrev FsPath := List String

/-- Split a path string into its components, dropping empty components,
mirroring how a path names a node of the directory tree. -/
def pathComponents (s : String) : FsPath :=
  (s.splitOn "/").filter (fun c => c ≠ "")

/-- Render a component path back to the string passed to a subprocess
argument vector (absolute, `/`-separated). -/
def renderPath (p : FsPath) : String :=
  "/" ++ String.intercalate "/" p

/-- `isUnder p q` is true when `q` equals `p` or lies strictly beneath
`p` in the directory tree (component-wise prefix test). -/
def isUnder : FsPath → FsPath → Bool
  | [], _ => true
  | _, [] => false
  | a :: as, b :: bs => a == b && isUnder as bs

/-- The four migration kinds offered by the `run` menu
(`MigrationTypeContainer`, `MigrationTypeVM`, `MigrationTypeVolumeFilesystem`,
`MigrationTypeVolumeBlock`). -/
inductive MigrationType where
  | container
  | vm
  | volumeFilesystem
  | volumeBlock
deriving DecidableEq, Repr

/-- The errors `main_migrate.go` can return, one constructor per
`fmt.Errorf`/`errors.New` site relevant to the orchestrator, carrying the
path the Go message interpolates where it does. -/
inductive MErr where
  | wrongMigrationType
  | promptFailed
  | archFailed
  | unshareFailed
  | mountPropagationFailed
  | mkdirTempFailed
  | mkdirFailed
  | mountFailed (src : String)
  | setupSourceFailed (inner : MErr)
  | toolNotFound (tool : String)
  | convertFailed (src : String)
  | createFileFailed (target : String)
  | makeReadOnlyFailed (src : String)
  | remoteCreateFailed
  | addHandlerFailed
  | remoteOperationFailed
  | cancelled
deriving DecidableEq, Repr

/-- Externally visible actions of `runMigration`, in program order.
`unshare`/`mountPrivateRec` record the syscall attempts of the namespace
sandbox; the remaining constructors record operations that succeeded
(a failed operation produces an error instead of a trace entry), except
`runConverter` which records the subprocess invocation itself. -/
inductive Event where
  | lockOSThread
  | unshare
  | mountPrivateRec
  | mkdirTemp (path : FsPath)
  | mkdir (path : FsPath)
  | bindMount (src : String) (target : FsPath)
  | remountReadOnly (target : FsPath)
  | runConverter (argv : List String) (dest : FsPath)
  | writeFile (path : FsPath)
  | unmountDetach (path : FsPath)
  | remove (path : FsPath)
  | handlerCall (path : FsPath)
deriving DecidableEq, Repr

/-- Remote API calls made by the migration handlers. -/
inductive RemoteCall where
  | createInstance
  | deleteInstance
  | createVolume
  | deleteVolume
  | addHandler
  | transfer
deriving DecidableEq, Repr

/-- The subset of `cmdMigrateData` the orchestrator reads. -/
structure cmdMigrateData where
  sourcePath : String := ""
  sourceFormat : String := ""
  mounts : List String := []
  instanceName : String := ""
  customVolumeName : String := ""
  customVolumeContentType : String := ""
  pool : String := ""
  project : String := ""
deriving DecidableEq, Repr

/-- The all-zero `cmdMigrateData{}` value returned by the gather
functions on error or when the user declines to migrate. -/
def emptyMigrateData : cmdMigrateData := {}

/-- Modelled from the spec: the revert helper used by the handlers
(`shared/revert`, not under `src/`).  Per the design notes it is "a
structured scope that registers rollback actions as it proceeds and runs
them in reverse order only if the scope exits without an explicit
commit".  `actions` stores registered actions most-recent-first, so
`onExit` already yields reverse registration order. -/
structure Reverter (α : Type) where
  actions : List α
  succeeded : Bool

/-- `revert.New()`: fresh scope with no actions, not committed. -/
def Reverter.new {α : Type} : Reverter α := ⟨[], false⟩

/-- `Reverter.Add`: register one rollback action. -/
def Reverter.add {α : Type} (r : Reverter α) (a : α) : Reverter α :=
  { r with actions := a :: r.actions }

/-- `Reverter.Success`: commit the scope, disarming the rollback. -/
def Reverter.success {α : Type} (r : Reverter α) : Reverter α :=
  { r with succeeded := true }

/-- The deferred `Reverter.Fail`: the rollback actions that actually run
when the scope exits (none after `Success`). -/
def Reverter.onExit {α : Type} (r : Reverter α) : List α :=
  if r.succeeded then [] else r.actions

/-- Outcomes of the external calls made inside a migration handler
closure (`migrateInstance` / `migrateCustomVolume`). -/
structure HandlerEnv where
  archErr : Option MErr := none
  createErr : Option MErr := none
  addHandlerErr : Option MErr := none
  transferErr : Option MErr := none

/-- The handler closure of `migrateInstance`: look up the local
architecture, create the instance, register its deletion with the
reverter, attach the progress handler, transfer the root filesystem and
commit.  Returns the Go error and the ordered remote calls made. -/
def instanceHandler (env : HandlerEnv) : Option MErr × List RemoteCall :=
  match env.archErr with
  | some e => (some e, [])
  | none =>
    match env.createErr with
    | some e => (some e, [RemoteCall.createInstance] ++ (Reverter.new (α := RemoteCall)).onExit)
    | none =>
      let reverter := (Reverter.new (α := RemoteCall)).add RemoteCall.deleteInstance
      match env.addHandlerErr with
      | some e => (some e, [RemoteCall.createInstance, RemoteCall.addHandler] ++ reverter.onExit)
      | none =>
        match env.transferErr with
        | some e =>
          (some e,
            [RemoteCall.createInstance, RemoteCall.addHandler, RemoteCall.transfer]
              ++ reverter.onExit)
        | none =>
          (none,
            [RemoteCall.createInstance, RemoteCall.addHandler, RemoteCall.transfer]
              ++ reverter.success.onExit)

/-- The handler closure of `migrateCustomVolume`: create the custom
volume from migration, register its deletion with the reverter, attach
the progress handler, transfer and commit. -/
def customVolumeHandler (env : HandlerEnv) : Option MErr × List RemoteCall :=
  match env.createErr with
  | some e => (some e, [RemoteCall.createVolume] ++ (Reverter.new (α := RemoteCall)).onExit)
  | none =>
    let reverter := (Reverter.new (α := RemoteCall)).add RemoteCall.deleteVolume
    match env.addHandlerErr with
    | some e => (some e, [RemoteCall.createVolume, RemoteCall.addHandler] ++ reverter.onExit)
    | none =>
      match env.transferErr with
      | some e =>
        (some e,
          [RemoteCall.createVolume, RemoteCall.addHandler, RemoteCall.transfer]
            ++ reverter.onExit)
      | none =>
        (none,
          [RemoteCall.createVolume, RemoteCall.addHandler, RemoteCall.transfer]
            ++ reverter.success.onExit)

/-- Outcomes of the OS-level and subprocess calls made by `runMigration`.
`tempPath` is the (fresh) directory `os.MkdirTemp` returns when it
succeeds; `contentExt`/`convCmd` are the results of
`archive.DetectCompression` on the source path (content-based format
sniffing); `srcDirectOk`/`destDirectSupport` say whether the filesystem
supports direct I/O on the respective path. -/
structure Env where
  unshareOk : Bool := true
  mountPrivateOk : Bool := true
  mkdirTempOk : Bool := true
  tempPath : FsPath := []
  mkdirRootfsOk : Bool := true
  setupFailIdx : Option Nat := none
  contentExt : String := ""
  convCmd : List String := []
  convToolFound : Bool := true
  srcDirectOk : Bool := true
  destDirectSupport : Bool := true
  convOk : Bool := true
  writeFileOk : Bool := true
  bindMountOk : Bool := true
  remountOk : Bool := true

/-- Name of the raw image the external converter produces inside the
temporary root. -/
def convertedImageFile : String := "converted-raw-image.img"

/-- Name of the placeholder mount point for the image inside the
temporary root. -/
def rootImageFile : String := "root.img"

/-- Lexicographic comparison of character sequences, mirroring the
byte-wise `<=` Go's `sort.Strings` uses (on UTF-8 encoded strings byte
order and code point order coincide). -/
def goCharsLe : List Char → List Char → Bool
  | [], _ => true
  | _ :: _, [] => false
  | a :: as, b :: bs => if a = b then goCharsLe as bs else decide (a < b)

/-- Go's string `<=` as used by `sort.Strings`. -/
def goStringLe (a b : String) : Bool :=
  goCharsLe a.data b.data

/-- `goStringLe` as a decidable relation for sorting. -/
def goLe (a b : String) : Prop :=
  goStringLe a b = true

instance : DecidableRel goLe :=
  fun _ _ => inferInstanceAs (Decidable (_ = true))

/-- The mount plan of `runMigration`: `config.Mounts` with the primary
source path appended, then sorted lexicographically
(`sort.Strings(config.Mounts)`). -/
def mountPlan (config : cmdMigrateData) : List String :=
  List.insertionSort goLe (config.mounts ++ [config.sourcePath])

/-- Modelled from the spec: `setupSource` is called by `runMigration`
but defined outside `src/`.  Per §4.3 it walks the (already sorted)
mount list in order, creates each mount point beneath the unified root
and bind-mounts the source path onto it; the first bind-mount failure
aborts the build with a mount error naming the offending source path.
`failIdx` is the index of the first bind mount the OS refuses, if any. -/
def setupSourceGo (fullPath : FsPath) (failIdx : Option Nat) :
    List String → Nat → Option MErr × List Event
  | [], _ => (none, [])
  | m :: rest, i =>
    let target := fullPath ++ pathComponents m
    if failIdx = some i then
      (some (MErr.mountFailed m), [Event.mkdir target])
    else
      let r := setupSourceGo fullPath failIdx rest (i + 1)
      (r.1, Event.mkdir target :: Event.bindMount m target :: r.2)

/-- Modelled from the spec: entry point of the source tree builder, see
`setupSourceGo`. -/
def setupSource (fullPath : FsPath) (mounts : List String) (failIdx : Option Nat) :
    Option MErr × List Event :=
  setupSourceGo fullPath failIdx mounts 0

/-- `os.OpenFile(path, unix.O_DIRECT|unix.O_RDONLY, 0)`: the flag set
contains no create flag, so the open succeeds exactly when a file
already exists at the path and the filesystem supports direct I/O on
it. -/
def openDirectReadOnly (fileAtPath : Bool) (directOk : Bool) : Bool :=
  fileAtPath && directOk

/-- The argument vector handed to the external converter subprocess:
`nice -n19`, the converter command from `DetectCompression`, the
progress flag, writeback cache mode, the optional no-cache flags from
the two direct-I/O probes, then source and destination paths. -/
def converterArgv (convCmd : List String) (srcProbe destProbe : Bool)
    (sourcePath destPath : String) : List String :=
  ["nice", "-n19"] ++ convCmd ++ ["-p", "-t", "writeback"]
    ++ (if srcProbe then ["-T", "none"] else [])
    ++ (if destProbe then ["-t", "none"] else [])
    ++ [sourcePath, destPath]

/-- The conversion step of the VM/block branch of `runMigration`:
when content sniffing reports qcow2/vmdk, look up the converter tool,
probe both paths for direct I/O, run the converter, and make the
converted image the effective source path.  `createdFiles` lists the
files that exist under the fresh temporary root at probe time.
Returns the error, the events, and the effective source path. -/
def diskConversion (env : Env) (t : FsPath) (sourcePath : String)
    (createdFiles : List FsPath) : Option MErr × List Event × String :=
  if env.contentExt = ".qcow2" ∨ env.contentExt = ".vmdk" then
    if ¬ env.convToolFound then
      (some (MErr.toolNotFound (env.convCmd.headD "")), [], sourcePath)
    else
      let destImg := t ++ [convertedImageFile]
      let srcProbe := openDirectReadOnly true env.srcDirectOk
      let destProbe := openDirectReadOnly (createdFiles.contains destImg) env.destDirectSupport
      let argv := converterArgv env.convCmd srcProbe destProbe sourcePath (renderPath destImg)
      if ¬ env.convOk then
        (some (MErr.convertFailed sourcePath), [Event.runConverter argv destImg], sourcePath)
      else
        (none, [Event.runConverter argv destImg], renderPath destImg)
  else
    (none, [], sourcePath)

/-- The mount steps of the VM/block branch: create the empty `root.img`
placeholder, bind-mount the (possibly converted) image onto it, then
remount that mount point read-only-bind. -/
def vmMountSteps (env : Env) (t : FsPath) (effectiveSource : String) :
    Option MErr × List Event :=
  let target := t ++ [rootImageFile]
  if ¬ env.writeFileOk then
    (some (MErr.createFileFailed (renderPath target)), [])
  else if ¬ env.bindMountOk then
    (some (MErr.mountFailed effectiveSource), [Event.writeFile target])
  else if ¬ env.remountOk then
    (some (MErr.makeReadOnlyFailed effectiveSource),
      [Event.writeFile target, Event.bindMount effectiveSource target])
  else
    (none,
      [Event.writeFile target, Event.bindMount effectiveSource target,
        Event.remountReadOnly target])

/-- The part of `runMigration` that runs after the temporary root is
created: the container/filesystem branch builds `rootfs` and the source
tree; the VM/block branch normalizes the image and mounts it read-only;
then the migration handler runs on the resulting path. -/
def migrationBody (env : Env) (config : cmdMigrateData) (mt : MigrationType)
    (handler : FsPath → Option MErr × List RemoteCall) (t : FsPath) :
    Option MErr × List Event × List RemoteCall :=
  if mt = MigrationType.container ∨ mt = MigrationType.volumeFilesystem then
    let fullPath := t ++ ["rootfs"]
    if ¬ env.mkdirRootfsOk then
      (some MErr.mkdirFailed, [], [])
    else
      let s := setupSource fullPath (mountPlan config) env.setupFailIdx
      match s.1 with
      | some e => (some (MErr.setupSourceFailed e), Event.mkdir fullPath :: s.2, [])
      | none =>
        let h := handler fullPath
        (h.1, Event.mkdir fullPath :: s.2 ++ [Event.handlerCall fullPath], h.2)
  else
    let d := diskConversion env t config.sourcePath []
    match d.1 with
    | some e => (some e, d.2.1, [])
    | none =>
      let v := vmMountSteps env t d.2.2
      match v.1 with
      | some e => (some e, d.2.1 ++ v.2, [])
      | none =>
        let h := handler t
        (h.1, d.2.1 ++ v.2 ++ [Event.handlerCall t], h.2)

/-- The deferred cleanup `runMigration` registers right after creating
the temporary root: detach-unmount the root and the `root.img` mount
point, remove the converted image and the placeholder, then remove the
temporary root, every failure ignored. -/
def cleanupEvents (t : FsPath) : List Event :=
  [Event.unmountDetach t, Event.unmountDetach (t ++ [rootImageFile]),
    Event.remove (t ++ [convertedImageFile]), Event.remove (t ++ [rootImageFile]),
    Event.remove t]

/-- `runMigration`: lock the OS thread, unshare a new mount namespace,
remount `/` private-recursive, create the temporary root, register the
deferred cleanup, run the branch-specific body and the handler, and on
every exit after the temporary root exists run the cleanup.  Returns
the Go error, the event trace, and the remote calls the handler made. -/
def runMigration (env : Env) (config : cmdMigrateData) (mt : MigrationType)
    (handler : FsPath → Option MErr × List RemoteCall) :
    Option MErr × List Event × List RemoteCall :=
  if ¬ env.unshareOk then
    (some MErr.unshareFailed, [Event.lockOSThread, Event.unshare], [])
  else if ¬ env.mountPrivateOk then
    (some MErr.mountPropagationFailed,
      [Event.lockOSThread, Event.unshare, Event.mountPrivateRec], [])
  else if ¬ env.mkdirTempOk then
    (some MErr.mkdirTempFailed,
      [Event.lockOSThread, Event.unshare, Event.mountPrivateRec], [])
  else
    let t := env.tempPath
    let b := migrationBody env config mt handler t
    (b.1,
      [Event.lockOSThread, Event.unshare, Event.mountPrivateRec, Event.mkdirTemp t]
        ++ b.2.1 ++ cleanupEvents t,
      b.2.2)

/-- `migrateInstance`: reject wrong migration types, gather the
configuration interactively, then run the migration with the instance
handler. -/
def migrateInstance (gatherErr : Option MErr) (config : cmdMigrateData)
    (env : Env) (henv : HandlerEnv) (mt : MigrationType) :
    Option MErr × List Event × List RemoteCall :=
  if ¬ (mt = MigrationType.vm ∨ mt = MigrationType.container) then
    (some MErr.wrongMigrationType, [], [])
  else
    match gatherErr with
    | some e => (some e, [], [])
    | none => runMigration env config mt (fun _ => instanceHandler henv)

/-- Outcomes of the interactive prompts of `gatherCustomVolumeInfo`.
`promptErr` collapses a failure of any prompt before the final
confirmation; `shouldMigrate` is the user's answer to
`"Do you want to continue?"`. -/
structure VolumeGatherEnv where
  promptErr : Option MErr := none
  project : String := ""
  pool : String := ""
  volumeName : String := ""
  sourcePath : String := ""
  sourceFormat : String := ""
  confirmErr : Option MErr := none
  shouldMigrate : Bool := true

/-- `gatherCustomVolumeInfo`: build the volume configuration from the
prompt answers; if the user declines the final confirmation, return the
all-zero configuration with no error. -/
def gatherCustomVolumeInfo (env : VolumeGatherEnv) (mt : MigrationType) :
    cmdMigrateData × Option MErr :=
  match env.promptErr with
  | some e => (emptyMigrateData, some e)
  | none =>
    let contentType := if mt = MigrationType.volumeFilesystem then "filesystem" else "block"
    let config : cmdMigrateData :=
      { customVolumeName := env.volumeName, customVolumeContentType := contentType,
        pool := env.pool, project := env.project,
        sourcePath := env.sourcePath, sourceFormat := env.sourceFormat }
    match env.confirmErr with
    | some e => (emptyMigrateData, some e)
    | none =>
      if ¬ env.shouldMigrate then (emptyMigrateData, none) else (config, none)

/-- `migrateCustomVolume`: reject wrong migration types, gather the
volume configuration, return success immediately when the user decided
not to migrate (empty volume name), else run the migration with the
custom volume handler. -/
def migrateCustomVolume (genv : VolumeGatherEnv) (env : Env) (henv : HandlerEnv)
    (mt : MigrationType) : Option MErr × List Event × List RemoteCall :=
  if ¬ (mt = MigrationType.volumeBlock ∨ mt = MigrationType.volumeFilesystem) then
    (some MErr.wrongMigrationType, [], [])
  else
    let g := gatherCustomVolumeInfo genv mt
    match g.2 with
    | some e => (some e, [], [])
    | none =>
      if g.1.customVolumeName = "" then (none, [], [])
      else runMigration env g.1 mt (fun _ => customVolumeHandler henv)

/-- The source-format classification of `askSourcePath` for VM/block
targets: a block device path is reported as `"Block device"` before any
content sniffing; otherwise the sniffed extension decides between
`"qcow2"`, `"vmdk"` and the `"raw"` fallback. -/
def detectSourceFormat (isBlockdevPath : Bool) (contentExt : String) : String :=
  if isBlockdevPath then "Block device"
  else if contentExt = ".qcow2" then "qcow2"
  else if contentExt = ".vmdk" then "vmdk"
  else "raw"

/-- A small filesystem-and-mount-table model giving semantics to the
event traces.  `dirs` and `files` are the nodes that exist, `mounts`
the active mount table as (target, read-only) pairs, newest first.
Paths are unique keys, so erasing every list entry equal to a path
models removing the single node at it. -/
structure FS where
  dirs : List FsPath := []
  files : List FsPath := []
  mounts : List (FsPath × Bool) := []
deriving DecidableEq, Repr

/-- Whether a mount is attached at exactly `p`. -/
def FS.isMountTarget (fs : FS) (p : FsPath) : Bool :=
  fs.mounts.any (fun m => m.1 == p)

/-- Whether any node or mount lies strictly beneath `p` (so `rmdir p`
would fail with `ENOTEMPTY`). -/
def FS.hasStrictChild (fs : FS) (p : FsPath) : Bool :=
  (fs.dirs ++ fs.files).any (fun q => isUnder p q && q != p)
    || fs.mounts.any (fun m => isUnder p m.1 && m.1 != p)

/-- Whether opening `p` for writing can succeed: it cannot when `p`
sits at or beneath a read-only mount. -/
def FS.writeOk (fs : FS) (p : FsPath) : Bool :=
  !(fs.mounts.any (fun m => m.2 && isUnder m.1 p))

/-- One step of the trace semantics.  Failing operations
(`unmountDetach` on a non-mount-point, `remove` of a missing, busy or
non-empty node) leave the state unchanged, mirroring the ignored error
returns of the deferred cleanup. -/
def applyEvent (fs : FS) : Event → FS
  | Event.lockOSThread => fs
  | Event.unshare => fs
  | Event.mountPrivateRec => fs
  | Event.mkdirTemp p => { fs with dirs := p :: fs.dirs }
  | Event.mkdir p => { fs with dirs := p :: fs.dirs }
  | Event.bindMount _ target => { fs with mounts := (target, false) :: fs.mounts }
  | Event.remountReadOnly target =>
    { fs with mounts := fs.mounts.map (fun m => if m.1 = target then (m.1, true) else m) }
  | Event.runConverter _ dest => { fs with files := dest :: fs.files }
  | Event.writeFile p => { fs with files := p :: fs.files }
  | Event.unmountDetach p => { fs with mounts := fs.mounts.filter (fun m => m.1 != p) }
  | Event.remove p =>
    if fs.files.contains p then
      if fs.isMountTarget p then fs
      else { fs with files := fs.files.filter (fun q => q != p) }
    else if fs.dirs.contains p then
      if fs.isMountTarget p || fs.hasStrictChild p then fs
      else { fs with dirs := fs.dirs.filter (fun q => q != p) }
    else fs
  | Event.handlerCall _ => fs

/-- Run a trace from an initial filesystem state. -/
def applyEvents (fs : FS) (evs : List Event) : FS :=
  evs.foldl applyEvent fs

/-- The mounts whose target is at or beneath `t`. -/
def FS.mountsUnder (fs : FS) (t : FsPath) : List (FsPath × Bool) :=
  fs.mounts.filter (fun m => isUnder t m.1)

/-- The temporary root `t` is fresh for `fs`: `os.MkdirTemp` returned a
newly created directory, so no node or mount of `fs` sits at or beneath
it. -/
def freshFor (fs : FS) (t : FsPath) : Prop :=
  (∀ p ∈ fs.dirs, isUnder t p = false) ∧ (∀ p ∈ fs.files, isUnder t p = false) ∧
    (∀ m ∈ fs.mounts, isUnder t m.1 = false)

/-- C1: in a run where remote resource creation succeeds but the
transfer fails, the matching remote delete call runs exactly once
before the error is propagated; when creation itself fails, no delete
call is ever made.  Stated for the instance handler (environments `a`,
`b`) and the custom volume handler (environments `c`, `d`). -/
theorem c1_rollback_exactly_once (a b c d : HandlerEnv) (e1 e2 e3 e4 : MErr)
    (ha0 : a.archErr = none) (ha1 : a.createErr = none) (ha2 : a.addHandlerErr = none)
    (ha3 : a.transferErr = some e1)
    (hb0 : b.archErr = none) (hb1 : b.createErr = some e2)
    (hc1 : c.createErr = none) (hc2 : c.addHandlerErr = none) (hc3 : c.transferErr = some e3)
    (hd1 : d.createErr = some e4) :
    ((instanceHandler a).1 = some e1 ∧
      (instanceHandler a).2.count RemoteCall.deleteInstance = 1) ∧
    ((instanceHandler b).1 = some e2 ∧
      (instanceHandler b).2.count RemoteCall.deleteInstance = 0) ∧
    ((customVolumeHandler c).1 = some e3 ∧
      (customVolumeHandler c).2.count RemoteCall.deleteVolume = 1) ∧
    ((customVolumeHandler d).1 = some e4 ∧
      (customVolumeHandler d).2.count RemoteCall.deleteVolume = 0) := by
  refine ⟨?_, ?_, ?_, ?_⟩
  · simp [instanceHandler, ha0, ha1, ha2, ha3, Reverter.new, Reverter.add, Reverter.onExit,
      List.count_cons, List.count_nil]
  · simp [instanceHandler, hb0, hb1, Reverter.new, Reverter.onExit,
      List.count_cons, List.count_nil]
  · simp [customVolumeHandler, hc1, hc2, hc3, Reverter.new, Reverter.add, Reverter.onExit,
      List.count_cons, List.count_nil]
  · simp [customVolumeHandler, hd1, Reverter.new, Reverter.onExit,
      List.count_cons, List.count_nil]

/-- Witness for C1 at concrete handler environments. -/
theorem c1_rollback_exactly_once_witness :
    ((instanceHandler { transferErr := some MErr.remoteOperationFailed }).1 =
        some MErr.remoteOperationFailed ∧
      (instanceHandler { transferErr := some MErr.remoteOperationFailed }).2.count
        RemoteCall.deleteInstance = 1) ∧
    ((instanceHandler { createErr := some MErr.remoteCreateFailed }).1 =
        some MErr.remoteCreateFailed ∧
      (instanceHandler { createErr := some MErr.remoteCreateFailed }).2.count
        RemoteCall.deleteInstance = 0) ∧
    ((customVolumeHandler { transferErr := some MErr.remoteOperationFailed }).1 =
        some MErr.remoteOperationFailed ∧
      (customVolumeHandler { transferErr := some MErr.remoteOperationFailed }).2.count
        RemoteCall.deleteVolume = 1) ∧
    ((customVolumeHandler { createErr := some MErr.remoteCreateFailed }).1 =
        some MErr.remoteCreateFailed ∧
      (customVolumeHandler { createErr := some MErr.remoteCreateFailed }).2.count
        RemoteCall.deleteVolume = 0) :=
  c1_rollback_exactly_once
    { transferErr := some MErr.remoteOperationFailed }
    { createErr := some MErr.remoteCreateFailed }
    { transferErr := some MErr.remoteOperationFailed }
    { createErr := some MErr.remoteCreateFailed }
    MErr.remoteOperationFailed MErr.remoteCreateFailed
    MErr.remoteOperationFailed MErr.remoteCreateFailed
    rfl rfl rfl rfl rfl rfl rfl rfl rfl rfl

/-- C10: when the user answers no at the final custom volume
confirmation prompt, `gatherCustomVolumeInfo` returns the empty
configuration without error and `migrateCustomVolume` returns success
immediately: the empty event trace means no namespace sandbox was
entered and no mount created, and the empty remote call list means no
remote resource creation was attempted. -/
theorem c10_decline_returns_immediately (genv : VolumeGatherEnv) (env : Env)
    (henv : HandlerEnv) (mt : MigrationType)
    (h1 : genv.promptErr = none) (h2 : genv.confirmErr = none)
    (h3 : genv.shouldMigrate = false)
    (h4 : mt = MigrationType.volumeFilesystem ∨ mt = MigrationType.volumeBlock) :
    gatherCustomVolumeInfo genv mt = (emptyMigrateData, none) ∧
      migrateCustomVolume genv env henv mt = (none, [], []) := by
  have hg : gatherCustomVolumeInfo genv mt = (emptyMigrateData, none) := by
    simp [gatherCustomVolumeInfo, h1, h2, h3]
  refine ⟨hg, ?_⟩
  rcases h4 with rfl | rfl <;>
    simp [migrateCustomVolume, hg, emptyMigrateData]

/-- Witness for C10 at a concrete declined run. -/
theorem c10_decline_returns_immediately_witness :
    gatherCustomVolumeInfo { volumeName := "vol1", shouldMigrate := false }
        MigrationType.volumeFilesystem = (emptyMigrateData, none) ∧
      migrateCustomVolume { volumeName := "vol1", shouldMigrate := false } {} {}
        MigrationType.volumeFilesystem = (none, [], []) :=
  c10_decline_returns_immediately { volumeName := "vol1", shouldMigrate := false } {} {}
    MigrationType.volumeFilesystem rfl rfl rfl (Or.inl rfl)

/-- Whether an event is an invocation of the external converter. -/
def isConverterRun : Event → Bool
  | Event.runConverter _ _ => true
  | _ => false

/-- Number of external converter invocations in a trace. -/
def converterRuns (evs : List Event) : Nat :=
  (evs.filter isConverterRun).length

theorem converterRuns_append (l1 l2 : List Event) :
    converterRuns (l1 ++ l2) = converterRuns l1 + converterRuns l2 := by
  simp [converterRuns, List.filter_append]

theorem converterRuns_vmMountSteps (env : Env) (t : FsPath) (s : String) :
    converterRuns (vmMountSteps env t s).2 = 0 := by
  unfold vmMountSteps
  split_ifs <;> simp [converterRuns, isConverterRun]

theorem converterRuns_cleanupEvents (t : FsPath) :
    converterRuns (cleanupEvents t) = 0 := by
  simp [cleanupEvents, converterRuns, isConverterRun]

theorem converterRuns_diskConversion (env : Env) (t : FsPath) (s : String)
    (cf : List FsPath) :
    converterRuns (diskConversion env t s cf).2.1 =
      if (env.contentExt = ".qcow2" ∨ env.contentExt = ".vmdk") ∧ env.convToolFound = true
      then 1 else 0 := by
  unfold diskConversion
  split_ifs with hext htool hconv <;>
    simp_all [converterRuns, isConverterRun]

/-- Unfolding of `runMigration` once the sandbox and temporary root
succeed: the trace is the sandbox prefix, the branch body, then the
deferred cleanup. -/
theorem runMigration_trace_shape (env : Env) (cfg : cmdMigrateData) (mt : MigrationType)
    (handler : FsPath → Option MErr × List RemoteCall)
    (h1 : env.unshareOk = true) (h2 : env.mountPrivateOk = true)
    (h3 : env.mkdirTempOk = true) :
    runMigration env cfg mt handler =
      ((migrationBody env cfg mt handler env.tempPath).1,
        [Event.lockOSThread, Event.unshare, Event.mountPrivateRec,
          Event.mkdirTemp env.tempPath]
          ++ (migrationBody env cfg mt handler env.tempPath).2.1
          ++ cleanupEvents env.tempPath,
        (migrationBody env cfg mt handler env.tempPath).2.2) := by
  simp [runMigration, h1, h2, h3]

/-- For VM/block targets `migrationBody` takes the disk branch. -/
theorem migrationBody_disk (env : Env) (cfg : cmdMigrateData) (mt : MigrationType)
    (handler : FsPath → Option MErr × List RemoteCall) (t : FsPath)
    (hmt : mt = MigrationType.vm ∨ mt = MigrationType.volumeBlock) :
    migrationBody env cfg mt handler t =
      (let d := diskConversion env t cfg.sourcePath []
      match d.1 with
      | some e => (some e, d.2.1, [])
      | none =>
        let v := vmMountSteps env t d.2.2
        match v.1 with
        | some e => (some e, d.2.1 ++ v.2, [])
        | none =>
          let h := handler t
          (h.1, d.2.1 ++ v.2 ++ [Event.handlerCall t], h.2)) := by
  rcases hmt with rfl | rfl <;> rfl

theorem converterRuns_migrationBody_disk (env : Env) (cfg : cmdMigrateData)
    (mt : MigrationType) (handler : FsPath → Option MErr × List RemoteCall) (t : FsPath)
    (hmt : mt = MigrationType.vm ∨ mt = MigrationType.volumeBlock) :
    converterRuns (migrationBody env cfg mt handler t).2.1 =
      converterRuns (diskConversion env t cfg.sourcePath []).2.1 := by
  rw [migrationBody_disk env cfg mt handler t hmt]
  cases hd : (diskConversion env t cfg.sourcePath []).1 with
  | some e => simp [hd]
  | none =>
    cases hv : (vmMountSteps env t (diskConversion env t cfg.sourcePath []).2.2).1 with
    | some e =>
      simp [hd, hv, converterRuns_append, converterRuns_vmMountSteps]
    | none =>
      have ha := converterRuns_vmMountSteps env t (diskConversion env t cfg.sourcePath []).2.2
      have hb : converterRuns [Event.handlerCall t] = 0 := rfl
      simp [hd, hv, converterRuns_append, ha, hb]

theorem converterRuns_runMigration_disk (env : Env) (cfg : cmdMigrateData)
    (mt : MigrationType) (handler : FsPath → Option MErr × List RemoteCall)
    (hmt : mt = MigrationType.vm ∨ mt = MigrationType.volumeBlock)
    (h1 : env.unshareOk = true) (h2 : env.mountPrivateOk = true)
    (h3 : env.mkdirTempOk = true) :
    converterRuns (runMigration env cfg mt handler).2.1 =
      if (env.contentExt = ".qcow2" ∨ env.contentExt = ".vmdk") ∧ env.convToolFound = true
      then 1 else 0 := by
  rw [runMigration_trace_shape env cfg mt handler h1 h2 h3]
  simp only [converterRuns_append, converterRuns_cleanupEvents,
    converterRuns_migrationBody_disk env cfg mt handler env.tempPath hmt,
    converterRuns_diskConversion]
  simp [converterRuns, isConverterRun]

/-- C5 counterexample: a block device whose content carries a qcow2
signature is classified `"Block device"` by `askSourcePath` (the block
device test wins over sniffing), yet `runMigration` keys the
normalization step on the sniffed extension alone and invokes the
external converter once on that very source.  So "classified as
BlockDevice implies the converter is never invoked" fails. -/
theorem c5_blockdevice_passthrough_counterexample :
    detectSourceFormat true ".qcow2" = "Block device" ∧
      converterRuns
        ((runMigration
          { tempPath := ["tmp", "m"], contentExt := ".qcow2",
            convCmd := ["qemu-img", "convert"] }
          { sourcePath := "/dev/sdb" } MigrationType.vm (fun _ => (none, []))).2.1) = 1 := by
  constructor
  · rfl
  · decide

/-- C5 amended: the normalization step keys on the sniffed content
format, not the classification: when sniffing reports neither qcow2 nor
vmdk the source path passes through unchanged and the converter is
never invoked; when sniffing reports qcow2 or vmdk (and the converter
tool is present) the converter is invoked exactly once and on success
the converted image in the temporary root becomes the effective source
path. -/
theorem c5_normalization_amended (env env2 : Env) (cfg cfg2 : cmdMigrateData)
    (mt mt2 : MigrationType)
    (handler handler2 : FsPath → Option MErr × List RemoteCall)
    (hmt : mt = MigrationType.vm ∨ mt = MigrationType.volumeBlock)
    (hraw : ¬ (env.contentExt = ".qcow2" ∨ env.contentExt = ".vmdk"))
    (h1 : env.unshareOk = true) (h2 : env.mountPrivateOk = true)
    (h3 : env.mkdirTempOk = true)
    (hmt2 : mt2 = MigrationType.vm ∨ mt2 = MigrationType.volumeBlock)
    (hq : env2.contentExt = ".qcow2" ∨ env2.contentExt = ".vmdk")
    (htool : env2.convToolFound = true)
    (g1 : env2.unshareOk = true) (g2 : env2.mountPrivateOk = true)
    (g3 : env2.mkdirTempOk = true) :
    (diskConversion env env.tempPath cfg.sourcePath [] = (none, [], cfg.sourcePath) ∧
      converterRuns (runMigration env cfg mt handler).2.1 = 0) ∧
    (converterRuns (runMigration env2 cfg2 mt2 handler2).2.1 = 1 ∧
      (env2.convOk = true →
        (diskConversion env2 env2.tempPath cfg2.sourcePath []).1 = none ∧
          (diskConversion env2 env2.tempPath cfg2.sourcePath []).2.2 =
            renderPath (env2.tempPath ++ [convertedImageFile]))) := by
  refine ⟨⟨?_, ?_⟩, ?_, ?_⟩
  · simp [diskConversion, hraw]
  · rw [converterRuns_runMigration_disk env cfg mt handler hmt h1 h2 h3]
    simp [hraw]
  · rw [converterRuns_runMigration_disk env2 cfg2 mt2 handler2 hmt2 g1 g2 g3]
    simp [hq, htool]
  · intro hok
    unfold diskConversion
    rcases hq with hq | hq <;> simp [hq, htool, hok]

/-- Witness for the amended C5 at concrete environments. -/
theorem c5_normalization_amended_witness :
    (diskConversion { tempPath := ["tmp", "m"], contentExt := "" } ["tmp", "m"]
        "/dev/sda" [] = (none, [], "/dev/sda") ∧
      converterRuns
        ((runMigration { tempPath := ["tmp", "m"], contentExt := "" }
          { sourcePath := "/dev/sda" } MigrationType.vm (fun _ => (none, []))).2.1) = 0) ∧
    (converterRuns
        ((runMigration
          { tempPath := ["tmp", "m"], contentExt := ".qcow2",
            convCmd := ["qemu-img", "convert"] }
          { sourcePath := "/img/disk.qcow2" } MigrationType.vm
          (fun _ => (none, []))).2.1) = 1 ∧
      (true = true →
        (diskConversion
          { tempPath := ["tmp", "m"], contentExt := ".qcow2",
            convCmd := ["qemu-img", "convert"] } ["tmp", "m"] "/img/disk.qcow2" []).1 =
          none ∧
          (diskConversion
            { tempPath := ["tmp", "m"], contentExt := ".qcow2",
              convCmd := ["qemu-img", "convert"] } ["tmp", "m"] "/img/disk.qcow2" []).2.2 =
            renderPath (["tmp", "m"] ++ [convertedImageFile]))) :=
  c5_normalization_amended
    { tempPath := ["tmp", "m"], contentExt := "" }
    { tempPath := ["tmp", "m"], contentExt := ".qcow2", convCmd := ["qemu-img", "convert"] }
    { sourcePath := "/dev/sda" } { sourcePath := "/img/disk.qcow2" }
    MigrationType.vm MigrationType.vm (fun _ => (none, [])) (fun _ => (none, []))
    (Or.inl rfl) (by decide) rfl rfl rfl (Or.inl rfl) (Or.inl rfl) rfl rfl rfl rfl

/-- When sniffing reports qcow2/vmdk and the tool is present, the
conversion step runs the converter exactly once with the argv built
from the two probes; conversion failure names the original source
path; on success the converted image becomes the effective source. -/
theorem diskConversion_conv_shape (env : Env) (t : FsPath) (s : String)
    (hq : env.contentExt = ".qcow2" ∨ env.contentExt = ".vmdk")
    (htool : env.convToolFound = true) :
    diskConversion env t s [] =
      (if env.convOk then none else some (MErr.convertFailed s),
        [Event.runConverter
          (converterArgv env.convCmd (openDirectReadOnly true env.srcDirectOk)
            (openDirectReadOnly
              (([] : List FsPath).contains (t ++ [convertedImageFile]))
              env.destDirectSupport)
            s (renderPath (t ++ [convertedImageFile])))
          (t ++ [convertedImageFile])],
        if env.convOk then renderPath (t ++ [convertedImageFile]) else s) := by
  unfold diskConversion
  rcases hq with hq | hq <;> cases hc : env.convOk <;> simp [hq, htool, hc]

/-- Under the same hypotheses the full `runMigration` trace contains
that converter invocation. -/
theorem runMigration_conv_event (env : Env) (cfg : cmdMigrateData) (mt : MigrationType)
    (handler : FsPath → Option MErr × List RemoteCall)
    (hmt : mt = MigrationType.vm ∨ mt = MigrationType.volumeBlock)
    (hq : env.contentExt = ".qcow2" ∨ env.contentExt = ".vmdk")
    (htool : env.convToolFound = true)
    (h1 : env.unshareOk = true) (h2 : env.mountPrivateOk = true)
    (h3 : env.mkdirTempOk = true) :
    ∃ pre post,
      (runMigration env cfg mt handler).2.1 =
        pre ++
          [Event.runConverter
            (converterArgv env.convCmd (openDirectReadOnly true env.srcDirectOk)
              (openDirectReadOnly
                (([] : List FsPath).contains (env.tempPath ++ [convertedImageFile]))
                env.destDirectSupport)
              cfg.sourcePath (renderPath (env.tempPath ++ [convertedImageFile])))
            (env.tempPath ++ [convertedImageFile])] ++ post := by
  have hbody :
      ∃ rest,
        (migrationBody env cfg mt handler env.tempPath).2.1 =
          [Event.runConverter
            (converterArgv env.convCmd (openDirectReadOnly true env.srcDirectOk)
              (openDirectReadOnly
                (([] : List FsPath).contains (env.tempPath ++ [convertedImageFile]))
                env.destDirectSupport)
              cfg.sourcePath (renderPath (env.tempPath ++ [convertedImageFile])))
            (env.tempPath ++ [convertedImageFile])] ++ rest := by
    rw [migrationBody_disk env cfg mt handler env.tempPath hmt]
    rw [diskConversion_conv_shape env env.tempPath cfg.sourcePath hq htool]
    cases hc : env.convOk with
    | false => exact ⟨[], rfl⟩
    | true =>
      simp only [hc, if_true]
      unfold vmMountSteps
      split_ifs <;> exact ⟨_, rfl⟩
  obtain ⟨rest, hrest⟩ := hbody
  refine ⟨[Event.lockOSThread, Event.unshare, Event.mountPrivateRec,
    Event.mkdirTemp env.tempPath], rest ++ cleanupEvents env.tempPath, ?_⟩
  rw [runMigration_trace_shape env cfg mt handler h1 h2 h3]
  simp [hrest]

/-- C8: for qcow2/vmdk sources the converter subprocess argv is, in
order, the `nice -n19` priority prefix, the converter command, the
progress flag, writeback cache mode, the source no-cache flag exactly
when the direct-I/O probe open of the source succeeds, the destination
no-cache flag exactly when the probe open of the (not yet existing)
destination succeeds, then source and destination paths; probe outcomes
never change the returned result, and a converter failure yields an
error naming the source path. -/
theorem c8_converter_argv (env : Env) (cfg : cmdMigrateData) (mt : MigrationType)
    (handler : FsPath → Option MErr × List RemoteCall)
    (hmt : mt = MigrationType.vm ∨ mt = MigrationType.volumeBlock)
    (hq : env.contentExt = ".qcow2" ∨ env.contentExt = ".vmdk")
    (htool : env.convToolFound = true)
    (h1 : env.unshareOk = true) (h2 : env.mountPrivateOk = true)
    (h3 : env.mkdirTempOk = true) :
    (∃ pre post,
      (runMigration env cfg mt handler).2.1 =
        pre ++
          [Event.runConverter
            (["nice", "-n19"] ++ env.convCmd ++ ["-p", "-t", "writeback"]
              ++ (if openDirectReadOnly true env.srcDirectOk then ["-T", "none"] else [])
              ++ (if openDirectReadOnly
                    (([] : List FsPath).contains (env.tempPath ++ [convertedImageFile]))
                    env.destDirectSupport
                  then ["-t", "none"] else [])
              ++ [cfg.sourcePath, renderPath (env.tempPath ++ [convertedImageFile])])
            (env.tempPath ++ [convertedImageFile])] ++ post) ∧
    converterRuns (runMigration env cfg mt handler).2.1 = 1 ∧
    (∀ b1 b2 : Bool,
      (runMigration { env with srcDirectOk := b1, destDirectSupport := b2 }
        cfg mt handler).1 = (runMigration env cfg mt handler).1) ∧
    (env.convOk = false →
      (runMigration env cfg mt handler).1 = some (MErr.convertFailed cfg.sourcePath)) := by
  refine ⟨?_, ?_, ?_, ?_⟩
  · exact runMigration_conv_event env cfg mt handler hmt hq htool h1 h2 h3
  · rw [converterRuns_runMigration_disk env cfg mt handler hmt h1 h2 h3]
    simp [hq, htool]
  · intro b1 b2
    rw [runMigration_trace_shape env cfg mt handler h1 h2 h3,
      runMigration_trace_shape { env with srcDirectOk := b1, destDirectSupport := b2 }
        cfg mt handler h1 h2 h3]
    rw [migrationBody_disk env cfg mt handler env.tempPath hmt,
      migrationBody_disk { env with srcDirectOk := b1, destDirectSupport := b2 }
        cfg mt handler env.tempPath hmt]
    rw [diskConversion_conv_shape env env.tempPath cfg.sourcePath hq htool,
      diskConversion_conv_shape { env with srcDirectOk := b1, destDirectSupport := b2 }
        env.tempPath cfg.sourcePath hq htool]
    cases hc : env.convOk with
    | false => simp
    | true =>
      simp only [if_true]
      unfold vmMountSteps
      split_ifs <;> simp
  · intro hc
    rw [runMigration_trace_shape env cfg mt handler h1 h2 h3]
    rw [migrationBody_disk env cfg mt handler env.tempPath hmt]
    rw [diskConversion_conv_shape env env.tempPath cfg.sourcePath hq htool]
    simp [hc]

/-- Witness for C8 at a concrete qcow2 source. -/
theorem c8_converter_argv_witness :
    (∃ pre post,
      (runMigration
        { tempPath := ["tmp", "m"], contentExt := ".qcow2",
          convCmd := ["qemu-img", "convert"] }
        { sourcePath := "/img/disk.qcow2" } MigrationType.vm
        (fun _ => (none, []))).2.1 =
        pre ++
          [Event.runConverter
            (["nice", "-n19"] ++ ["qemu-img", "convert"] ++ ["-p", "-t", "writeback"]
              ++ (if openDirectReadOnly true true then ["-T", "none"] else [])
              ++ (if openDirectReadOnly
                    (([] : List FsPath).contains (["tmp", "m"] ++ [convertedImageFile]))
                    true
                  then ["-t", "none"] else [])
              ++ ["/img/disk.qcow2", renderPath (["tmp", "m"] ++ [convertedImageFile])])
            (["tmp", "m"] ++ [convertedImageFile])] ++ post) ∧
    converterRuns
      ((runMigration
        { tempPath := ["tmp", "m"], contentExt := ".qcow2",
          convCmd := ["qemu-img", "convert"] }
        { sourcePath := "/img/disk.qcow2" } MigrationType.vm
        (fun _ => (none, []))).2.1) = 1 ∧
    (∀ b1 b2 : Bool,
      (runMigration
        { tempPath := ["tmp", "m"], contentExt := ".qcow2",
          convCmd := ["qemu-img", "convert"], srcDirectOk := b1,
          destDirectSupport := b2 }
        { sourcePath := "/img/disk.qcow2" } MigrationType.vm (fun _ => (none, []))).1 =
        (runMigration
          { tempPath := ["tmp", "m"], contentExt := ".qcow2",
            convCmd := ["qemu-img", "convert"] }
          { sourcePath := "/img/disk.qcow2" } MigrationType.vm
          (fun _ => (none, []))).1) ∧
    (true = false →
      (runMigration
        { tempPath := ["tmp", "m"], contentExt := ".qcow2",
          convCmd := ["qemu-img", "convert"] }
        { sourcePath := "/img/disk.qcow2" } MigrationType.vm (fun _ => (none, []))).1 =
        some (MErr.convertFailed "/img/disk.qcow2")) :=
  c8_converter_argv
    { tempPath := ["tmp", "m"], contentExt := ".qcow2", convCmd := ["qemu-img", "convert"] }
    { sourcePath := "/img/disk.qcow2" } MigrationType.vm (fun _ => (none, []))
    (Or.inl rfl) (Or.inl rfl) rfl rfl rfl rfl

/-- C9: the destination direct-I/O probe opens a path at which no file
yet exists (the temporary root is fresh and the converter has not run),
with a read-only open and no create flag, so it always fails and the
destination no-cache flag is never appended: the converter argv is
exactly the writeback-mode form with at most the source no-cache
flag. -/
theorem c9_destination_probe_always_fails (env : Env) (cfg : cmdMigrateData)
    (mt : MigrationType) (handler : FsPath → Option MErr × List RemoteCall)
    (hmt : mt = MigrationType.vm ∨ mt = MigrationType.volumeBlock)
    (hq : env.contentExt = ".qcow2" ∨ env.contentExt = ".vmdk")
    (htool : env.convToolFound = true)
    (h1 : env.unshareOk = true) (h2 : env.mountPrivateOk = true)
    (h3 : env.mkdirTempOk = true) :
    openDirectReadOnly
      (([] : List FsPath).contains (env.tempPath ++ [convertedImageFile]))
      env.destDirectSupport = false ∧
    (∃ pre post,
      (runMigration env cfg mt handler).2.1 =
        pre ++
          [Event.runConverter
            (["nice", "-n19"] ++ env.convCmd ++ ["-p", "-t", "writeback"]
              ++ (if env.srcDirectOk then ["-T", "none"] else [])
              ++ [cfg.sourcePath, renderPath (env.tempPath ++ [convertedImageFile])])
            (env.tempPath ++ [convertedImageFile])] ++ post) := by
  have hprobe :
      openDirectReadOnly
        (([] : List FsPath).contains (env.tempPath ++ [convertedImageFile]))
        env.destDirectSupport = false := by
    simp [openDirectReadOnly]
  refine ⟨hprobe, ?_⟩
  obtain ⟨pre, post, hshape⟩ :=
    runMigration_conv_event env cfg mt handler hmt hq htool h1 h2 h3
  refine ⟨pre, post, ?_⟩
  rw [hshape]
  simp [converterArgv, hprobe, openDirectReadOnly]

/-- Witness for C9 at a concrete qcow2 source. -/
theorem c9_destination_probe_always_fails_witness :
    openDirectReadOnly
      (([] : List FsPath).contains (["tmp", "m"] ++ [convertedImageFile])) true = false ∧
    (∃ pre post,
      (runMigration
        { tempPath := ["tmp", "m"], contentExt := ".qcow2",
          convCmd := ["qemu-img", "convert"] }
        { sourcePath := "/img/disk.qcow2" } MigrationType.vm
        (fun _ => (none, []))).2.1 =
        pre ++
          [Event.runConverter
            (["nice", "-n19"] ++ ["qemu-img", "convert"] ++ ["-p", "-t", "writeback"]
              ++ (if true then ["-T", "none"] else [])
              ++ ["/img/disk.qcow2", renderPath (["tmp", "m"] ++ [convertedImageFile])])
            (["tmp", "m"] ++ [convertedImageFile])] ++ post) :=
  c9_destination_probe_always_fails
    { tempPath := ["tmp", "m"], contentExt := ".qcow2", convCmd := ["qemu-img", "convert"] }
    { sourcePath := "/img/disk.qcow2" } MigrationType.vm (fun _ => (none, []))
    (Or.inl rfl) (Or.inl rfl) rfl rfl rfl rfl

theorem goCharsLe_trans :
    ∀ a b c : List Char, goCharsLe a b = true → goCharsLe b c = true →
      goCharsLe a c = true := by
  intro a
  induction a with
  | nil => intro b c _ _; rfl
  | cons x as ih =>
    intro b c hab hbc
    cases b with
    | nil => simp [goCharsLe] at hab
    | cons y bs =>
      cases c with
      | nil => simp [goCharsLe] at hbc
      | cons z cs =>
        simp only [goCharsLe] at hab hbc ⊢
        by_cases hxy : x = y
        · subst hxy
          by_cases hxz : x = z
          · subst hxz
            simp only [if_pos rfl] at hab hbc ⊢
            exact ih bs cs hab hbc
          · simpa [hxz] using hbc
        · by_cases hyz : y = z
          · subst hyz
            simpa [hxy] using hab
          · simp only [if_neg hxy] at hab
            simp only [if_neg hyz] at hbc
            have hlt : x < z := lt_trans (of_decide_eq_true hab) (of_decide_eq_true hbc)
            have hxz : x ≠ z := ne_of_lt hlt
            simp [hxz, hlt]

theorem goCharsLe_total :
    ∀ a b : List Char, goCharsLe a b = true ∨ goCharsLe b a = true := by
  intro a
  induction a with
  | nil => intro b; exact Or.inl rfl
  | cons x as ih =>
    intro b
    cases b with
    | nil => exact Or.inr rfl
    | cons y bs =>
      by_cases hxy : x = y
      · subst hxy
        rcases ih bs with h | h
        · exact Or.inl (by simp [goCharsLe, h])
        · exact Or.inr (by simp [goCharsLe, h])
      · rcases lt_or_gt_of_ne hxy with h | h
        · exact Or.inl (by simp [goCharsLe, hxy, h])
        · exact Or.inr (by simp [goCharsLe, Ne.symm hxy, h])

instance : IsTrans String goLe :=
  ⟨fun _ _ _ hab hbc => goCharsLe_trans _ _ _ hab hbc⟩

instance : IsTotal String goLe :=
  ⟨fun a b => goCharsLe_total a.data b.data⟩

/-- A sequence is never `goCharsLe`-below one of its proper prefixes. -/
theorem goCharsLe_append_cons_false :
    ∀ (p : List Char) (c : Char) (t : List Char),
      goCharsLe (p ++ c :: t) p = false := by
  intro p
  induction p with
  | nil => intro c t; rfl
  | cons x ps ih => intro c t; simp [goCharsLe, ih]

/-- In a `goLe`-ordered pair, the later string is never a proper prefix
of the earlier one. -/
theorem no_later_proper_pre (a b : String) (hle : goLe a b) :
    ¬ (b.data <+: a.data ∧ b ≠ a) := by
  rintro ⟨⟨t, ht⟩, hne⟩
  cases t with
  | nil =>
    apply hne
    have hdata : b.data = a.data := by simpa using ht
    calc b = (⟨b.data⟩ : String) := rfl
      _ = (⟨a.data⟩ : String) := by rw [hdata]
      _ = a := rfl
  | cons c t' =>
    have hfalse : goCharsLe a.data b.data = false := by
      rw [← ht]
      exact goCharsLe_append_cons_false b.data c t'
    rw [goLe, goStringLe, hfalse] at hle
    cases hle

/-- The source paths of the bind-mount events of a trace, in order. -/
def bindMountSrcs (evs : List Event) : List String :=
  evs.filterMap (fun e =>
    match e with
    | Event.bindMount s _ => some s
    | _ => none)

theorem bindMountSrcs_setupSourceGo (fp : FsPath) :
    ∀ (l : List String) (i : Nat),
      bindMountSrcs (setupSourceGo fp none l i).2 = l := by
  intro l
  induction l with
  | nil => intro i; rfl
  | cons m rest ih =>
    intro i
    simp [setupSourceGo, bindMountSrcs, List.filterMap_cons] at ih ⊢
    exact ih (i + 1)

/-- For container/filesystem targets with a working source build, the
body of `runMigration` is the `rootfs` creation, the source tree build
over the sorted plan, and the handler call. -/
theorem migrationBody_container (env : Env) (cfg : cmdMigrateData) (mt : MigrationType)
    (handler : FsPath → Option MErr × List RemoteCall) (t : FsPath)
    (hmt : mt = MigrationType.container ∨ mt = MigrationType.volumeFilesystem)
    (h4 : env.mkdirRootfsOk = true) (h5 : env.setupFailIdx = none)
    (hsOk : (setupSource (t ++ ["rootfs"]) (mountPlan cfg) none).1 = none) :
    migrationBody env cfg mt handler t =
      ((handler (t ++ ["rootfs"])).1,
        Event.mkdir (t ++ ["rootfs"]) ::
          (setupSource (t ++ ["rootfs"]) (mountPlan cfg) none).2
          ++ [Event.handlerCall (t ++ ["rootfs"])],
        (handler (t ++ ["rootfs"])).2) := by
  rcases hmt with rfl | rfl <;>
    simp [migrationBody, h4, h5, hsOk]

/-- With `failIdx = none` the source build reports no error. -/
theorem setupSourceGo_none_ok (fp : FsPath) :
    ∀ (l : List String) (i : Nat), (setupSourceGo fp none l i).1 = none := by
  intro l
  induction l with
  | nil => intro i; rfl
  | cons m rest ih =>
    intro i
    simp [setupSourceGo]
    exact ih (i + 1)

/-- C3: the mount plan is all additional mount paths plus the primary
source path (a permutation of them), lexicographically sorted; on the
concrete example it is `["/data/a", "/data/b", "/src/root"]`; in the
sorted plan no later entry is a proper prefix of an earlier one (so a
mount at a shorter prefix path is established before any path nested
beneath it); and the source tree builder bind-mounts exactly the plan
in plan order. -/
theorem c3_mount_plan_sorted (cfg : cmdMigrateData) (env : Env) (mt : MigrationType)
    (handler : FsPath → Option MErr × List RemoteCall)
    (hmt : mt = MigrationType.container ∨ mt = MigrationType.volumeFilesystem)
    (h1 : env.unshareOk = true) (h2 : env.mountPrivateOk = true)
    (h3 : env.mkdirTempOk = true) (h4 : env.mkdirRootfsOk = true)
    (h5 : env.setupFailIdx = none) :
    mountPlan { sourcePath := "/src/root", mounts := ["/data/a", "/data/b"] } =
      ["/data/a", "/data/b", "/src/root"] ∧
    List.Perm (mountPlan cfg) (cfg.mounts ++ [cfg.sourcePath]) ∧
    List.Sorted goLe (mountPlan cfg) ∧
    List.Pairwise (fun a b => ¬ (b.data <+: a.data ∧ b ≠ a)) (mountPlan cfg) ∧
    bindMountSrcs (runMigration env cfg mt handler).2.1 = mountPlan cfg := by
  have hsorted : List.Sorted goLe (mountPlan cfg) :=
    List.sorted_insertionSort goLe (cfg.mounts ++ [cfg.sourcePath])
  refine ⟨by decide, List.perm_insertionSort goLe (cfg.mounts ++ [cfg.sourcePath]),
    hsorted, ?_, ?_⟩
  · exact List.Pairwise.imp (fun hab => no_later_proper_pre _ _ hab) hsorted
  · have hsOk : (setupSource (env.tempPath ++ ["rootfs"]) (mountPlan cfg) none).1 = none :=
      setupSourceGo_none_ok (env.tempPath ++ ["rootfs"]) (mountPlan cfg) 0
    rw [runMigration_trace_shape env cfg mt handler h1 h2 h3,
      migrationBody_container env cfg mt handler env.tempPath hmt h4 h5 hsOk]
    have hmain := bindMountSrcs_setupSourceGo (env.tempPath ++ ["rootfs"]) (mountPlan cfg) 0
    simp only [bindMountSrcs, setupSource] at hmain
    simp only [bindMountSrcs, List.filterMap_append, List.filterMap_cons, setupSource]
    simp [cleanupEvents, hmain]

/-- Witness for C3 at the concrete example of the claim. -/
theorem c3_mount_plan_sorted_witness :
    mountPlan { sourcePath := "/src/root", mounts := ["/data/a", "/data/b"] } =
      ["/data/a", "/data/b", "/src/root"] ∧
    List.Perm (mountPlan { sourcePath := "/src/root", mounts := ["/data/a", "/data/b"] })
      (["/data/a", "/data/b"] ++ ["/src/root"]) ∧
    List.Sorted goLe (mountPlan { sourcePath := "/src/root", mounts := ["/data/a", "/data/b"] }) ∧
    List.Pairwise (fun a b => ¬ (b.data <+: a.data ∧ b ≠ a))
      (mountPlan { sourcePath := "/src/root", mounts := ["/data/a", "/data/b"] }) ∧
    bindMountSrcs
      ((runMigration { tempPath := ["tmp", "m"] }
        { sourcePath := "/src/root", mounts := ["/data/a", "/data/b"] }
        MigrationType.container (fun _ => (none, []))).2.1) =
      mountPlan { sourcePath := "/src/root", mounts := ["/data/a", "/data/b"] } :=
  c3_mount_plan_sorted { sourcePath := "/src/root", mounts := ["/data/a", "/data/b"] }
    { tempPath := ["tmp", "m"] } MigrationType.container (fun _ => (none, []))
    (Or.inl rfl) rfl rfl rfl rfl rfl

/-- Whether an event belongs to the namespace-sandbox sequence. -/
def isSandboxEvent : Event → Bool
  | Event.lockOSThread => true
  | Event.unshare => true
  | Event.mountPrivateRec => true
  | _ => false

theorem sandboxFree_setupSourceGo (fp : FsPath) (f : Option Nat) :
    ∀ (l : List String) (i : Nat) (e : Event),
      e ∈ (setupSourceGo fp f l i).2 → isSandboxEvent e = false := by
  intro l
  induction l with
  | nil => intro i e he; simp [setupSourceGo] at he
  | cons m rest ih =>
    intro i e he
    by_cases hf : f = some i
    · simp [setupSourceGo, hf] at he
      subst he
      rfl
    · simp [setupSourceGo, hf] at he
      rcases he with rfl | rfl | he
      · rfl
      · rfl
      · exact ih (i + 1) e he

theorem sandboxFree_diskConversion (env : Env) (t : FsPath) (s : String)
    (cf : List FsPath) :
    ∀ e ∈ (diskConversion env t s cf).2.1, isSandboxEvent e = false := by
  unfold diskConversion
  split_ifs <;> intro e he <;> simp at he
  all_goals (subst he; rfl)

theorem sandboxFree_vmMountSteps (env : Env) (t : FsPath) (s : String) :
    ∀ e ∈ (vmMountSteps env t s).2, isSandboxEvent e = false := by
  unfold vmMountSteps
  split_ifs <;> intro e he <;> simp at he
  · rcases he with rfl | rfl | rfl <;> rfl
  · rcases he with rfl | rfl <;> rfl
  · subst he; rfl

theorem sandboxFree_cleanupEvents (t : FsPath) :
    ∀ e ∈ cleanupEvents t, isSandboxEvent e = false := by
  intro e he
  simp [cleanupEvents] at he
  rcases he with rfl | rfl | rfl | rfl | rfl <;> rfl

theorem sandboxFree_migrationBody (env : Env) (cfg : cmdMigrateData) (mt : MigrationType)
    (handler : FsPath → Option MErr × List RemoteCall) (t : FsPath) :
    ∀ e ∈ (migrationBody env cfg mt handler t).2.1, isSandboxEvent e = false := by
  intro e he
  unfold migrationBody at he
  dsimp only [] at he
  split at he
  · split at he
    · exact absurd he (List.not_mem_nil e)
    · split at he
      · rcases List.mem_cons.mp he with rfl | he2
        · rfl
        · exact sandboxFree_setupSourceGo _ _ _ _ e he2
      · rcases List.mem_cons.mp he with rfl | he2
        · rfl
        · rcases List.mem_append.mp he2 with he3 | he3
          · exact sandboxFree_setupSourceGo _ _ _ _ e he3
          · rw [List.mem_singleton.mp he3]; rfl
  · split at he
    · exact sandboxFree_diskConversion env t cfg.sourcePath [] e he
    · split at he
      · rcases List.mem_append.mp he with he2 | he2
        · exact sandboxFree_diskConversion env t cfg.sourcePath [] e he2
        · exact sandboxFree_vmMountSteps env t _ e he2
      · rcases List.mem_append.mp he with he2 | he2
        · rcases List.mem_append.mp he2 with he3 | he3
          · exact sandboxFree_diskConversion env t cfg.sourcePath [] e he3
          · exact sandboxFree_vmMountSteps env t _ e he3
        · rw [List.mem_singleton.mp he2]; rfl

/-- C7: in every run the namespace-sandbox sequence opens the trace
exactly once — the OS thread is locked, the mount namespace unshared,
then the filesystem root remounted private-recursive — strictly before
any mount or temporary-path event, all of which sit in the remainder of
the trace; unshare failure aborts with the unshare error before any
mount, and a failed private remount aborts with the propagation
error. -/
theorem c7_sandbox_runs_once_first (env : Env) (cfg : cmdMigrateData)
    (mt : MigrationType) (handler : FsPath → Option MErr × List RemoteCall) :
    (∃ rest, (runMigration env cfg mt handler).2.1 =
      Event.lockOSThread :: Event.unshare :: rest ∧
      ∀ e ∈ rest, e ≠ Event.unshare ∧ e ≠ Event.lockOSThread) ∧
    (env.unshareOk = false →
      runMigration env cfg mt handler =
        (some MErr.unshareFailed, [Event.lockOSThread, Event.unshare], [])) ∧
    (env.unshareOk = true →
      ∃ rest, (runMigration env cfg mt handler).2.1 =
        Event.lockOSThread :: Event.unshare :: Event.mountPrivateRec :: rest ∧
        ∀ e ∈ rest, isSandboxEvent e = false) ∧
    (env.unshareOk = true → env.mountPrivateOk = false →
      runMigration env cfg mt handler =
        (some MErr.mountPropagationFailed,
          [Event.lockOSThread, Event.unshare, Event.mountPrivateRec], [])) := by
  have hrest :
      env.unshareOk = true →
        ∃ rest, (runMigration env cfg mt handler).2.1 =
          Event.lockOSThread :: Event.unshare :: Event.mountPrivateRec :: rest ∧
          ∀ e ∈ rest, isSandboxEvent e = false := by
    intro hu
    by_cases hp : env.mountPrivateOk
    · by_cases hk : env.mkdirTempOk
      · refine ⟨Event.mkdirTemp env.tempPath ::
          (migrationBody env cfg mt handler env.tempPath).2.1 ++ cleanupEvents env.tempPath,
          ?_, ?_⟩
        · rw [runMigration_trace_shape env cfg mt handler hu (by simpa using hp) hk]
          simp
        · intro e he
          rcases List.mem_cons.mp he with rfl | he2
          · rfl
          · rcases List.mem_append.mp he2 with he3 | he3
            · exact sandboxFree_migrationBody env cfg mt handler env.tempPath e he3
            · exact sandboxFree_cleanupEvents env.tempPath e he3
      · refine ⟨[], ?_, by simp⟩
        simp [runMigration, hu, hp, hk]
    · refine ⟨[], ?_, by simp⟩
      simp [runMigration, hu, hp]
  refine ⟨?_, ?_, hrest, ?_⟩
  · by_cases hu : env.unshareOk
    · obtain ⟨rest, hr, hfree⟩ := hrest hu
      refine ⟨Event.mountPrivateRec :: rest, by simpa using hr, ?_⟩
      intro e he
      rcases List.mem_cons.mp he with rfl | he2
      · exact ⟨by simp, by simp⟩
      · have := hfree e he2
        constructor <;> rintro rfl <;> simp [isSandboxEvent] at this
    · refine ⟨[], ?_, by simp⟩
      simp [runMigration, hu]
  · intro hu
    simp [runMigration, hu]
  · intro hu hp
    simp [runMigration, hu, hp]

/-- Witness for C7 at a concrete successful container run and a
concrete failing unshare. -/
theorem c7_sandbox_runs_once_first_witness :
    (∃ rest, (runMigration { tempPath := ["tmp", "m"] } { sourcePath := "/src" }
      MigrationType.container (fun _ => (none, []))).2.1 =
      Event.lockOSThread :: Event.unshare :: rest ∧
      ∀ e ∈ rest, e ≠ Event.unshare ∧ e ≠ Event.lockOSThread) ∧
    (true = false →
      runMigration { tempPath := ["tmp", "m"] } { sourcePath := "/src" }
        MigrationType.container (fun _ => (none, [])) =
        (some MErr.unshareFailed, [Event.lockOSThread, Event.unshare], [])) ∧
    (true = true →
      ∃ rest, (runMigration { tempPath := ["tmp", "m"] } { sourcePath := "/src" }
        MigrationType.container (fun _ => (none, []))).2.1 =
        Event.lockOSThread :: Event.unshare :: Event.mountPrivateRec :: rest ∧
        ∀ e ∈ rest, isSandboxEvent e = false) ∧
    (true = true → true = false →
      runMigration { tempPath := ["tmp", "m"] } { sourcePath := "/src" }
        MigrationType.container (fun _ => (none, [])) =
        (some MErr.mountPropagationFailed,
          [Event.lockOSThread, Event.unshare, Event.mountPrivateRec], [])) :=
  c7_sandbox_runs_once_first { tempPath := ["tmp", "m"] } { sourcePath := "/src" }
    MigrationType.container (fun _ => (none, []))

theorem isUnder_refl : ∀ p : FsPath, isUnder p p = true := by
  intro p
  induction p with
  | nil => rfl
  | cons a as ih => simp [isUnder, ih]

/-- After bind-mounting anything at `tg` and remounting `tg`
read-only-bind, a write through `tg` fails, whatever the rest of the
filesystem state. -/
theorem writeOk_after_bind_ro (fs : FS) (s : String) (tg : FsPath) :
    FS.writeOk
      (applyEvent (applyEvent fs (Event.bindMount s tg)) (Event.remountReadOnly tg))
      tg = false := by
  simp [applyEvent, FS.writeOk, isUnder_refl]

/-- On the disk branch, when every step succeeds the body is the
optional conversion followed by the placeholder creation, the bind
mount of the effective source onto `root.img`, the read-only remount,
and the handler call. -/
theorem migrationBody_disk_success (env : Env) (cfg : cmdMigrateData) (mt : MigrationType)
    (handler : FsPath → Option MErr × List RemoteCall) (t : FsPath)
    (hmt : mt = MigrationType.vm ∨ mt = MigrationType.volumeBlock)
    (hconv : (env.contentExt = ".qcow2" ∨ env.contentExt = ".vmdk") →
      env.convToolFound = true ∧ env.convOk = true)
    (h6 : env.writeFileOk = true) (h7 : env.bindMountOk = true)
    (h8 : env.remountOk = true) :
    ∃ convEvs src,
      migrationBody env cfg mt handler t =
        ((handler t).1,
          convEvs ++ [Event.writeFile (t ++ [rootImageFile]),
            Event.bindMount src (t ++ [rootImageFile]),
            Event.remountReadOnly (t ++ [rootImageFile]),
            Event.handlerCall t],
          (handler t).2) := by
  rw [migrationBody_disk env cfg mt handler t hmt]
  by_cases hq : env.contentExt = ".qcow2" ∨ env.contentExt = ".vmdk"
  · obtain ⟨htool, hok⟩ := hconv hq
    rw [diskConversion_conv_shape env t cfg.sourcePath hq htool]
    refine ⟨[Event.runConverter
      (converterArgv env.convCmd (openDirectReadOnly true env.srcDirectOk)
        (openDirectReadOnly (([] : List FsPath).contains (t ++ [convertedImageFile]))
          env.destDirectSupport)
        cfg.sourcePath (renderPath (t ++ [convertedImageFile])))
      (t ++ [convertedImageFile])], renderPath (t ++ [convertedImageFile]), ?_⟩
    simp [hok, vmMountSteps, h6, h7, h8]
  · have hd : diskConversion env t cfg.sourcePath [] = (none, [], cfg.sourcePath) := by
      simp [diskConversion, hq]
    rw [hd]
    refine ⟨[], cfg.sourcePath, ?_⟩
    simp [vmMountSteps, h6, h7, h8]

/-- C6: in every successful VM/block migration the empty `root.img`
placeholder is created in the temporary root, the (possibly converted)
image is bind-mounted onto it and the same mount point is remounted
read-only-bind, in that order, right before the handler runs; from any
initial filesystem state, a write through `root.img` fails after those
events; and if either mount step fails the run returns the
corresponding mount error. -/
theorem c6_root_image_read_only (env env2 env3 : Env)
    (cfg cfg2 cfg3 : cmdMigrateData) (mt mt2 mt3 : MigrationType)
    (handler handler2 handler3 : FsPath → Option MErr × List RemoteCall)
    (hmt : mt = MigrationType.vm ∨ mt = MigrationType.volumeBlock)
    (h1 : env.unshareOk = true) (h2 : env.mountPrivateOk = true)
    (h3 : env.mkdirTempOk = true)
    (hconv : (env.contentExt = ".qcow2" ∨ env.contentExt = ".vmdk") →
      env.convToolFound = true ∧ env.convOk = true)
    (h6 : env.writeFileOk = true) (h7 : env.bindMountOk = true)
    (h8 : env.remountOk = true)
    (gmt : mt2 = MigrationType.vm ∨ mt2 = MigrationType.volumeBlock)
    (g1 : env2.unshareOk = true) (g2 : env2.mountPrivateOk = true)
    (g3 : env2.mkdirTempOk = true)
    (gconv : (env2.contentExt = ".qcow2" ∨ env2.contentExt = ".vmdk") →
      env2.convToolFound = true ∧ env2.convOk = true)
    (g6 : env2.writeFileOk = true) (g7 : env2.bindMountOk = false)
    (kmt : mt3 = MigrationType.vm ∨ mt3 = MigrationType.volumeBlock)
    (k1 : env3.unshareOk = true) (k2 : env3.mountPrivateOk = true)
    (k3 : env3.mkdirTempOk = true)
    (kconv : (env3.contentExt = ".qcow2" ∨ env3.contentExt = ".vmdk") →
      env3.convToolFound = true ∧ env3.convOk = true)
    (k6 : env3.writeFileOk = true) (k7 : env3.bindMountOk = true)
    (k8 : env3.remountOk = false) :
    (∃ evs src,
      (runMigration env cfg mt handler).2.1 =
        evs ++ [Event.writeFile (env.tempPath ++ [rootImageFile]),
          Event.bindMount src (env.tempPath ++ [rootImageFile]),
          Event.remountReadOnly (env.tempPath ++ [rootImageFile]),
          Event.handlerCall env.tempPath] ++ cleanupEvents env.tempPath ∧
      ∀ fs0 : FS,
        FS.writeOk
          (applyEvents fs0
            (evs ++ [Event.writeFile (env.tempPath ++ [rootImageFile]),
              Event.bindMount src (env.tempPath ++ [rootImageFile]),
              Event.remountReadOnly (env.tempPath ++ [rootImageFile])]))
          (env.tempPath ++ [rootImageFile]) = false) ∧
    (∃ src2, (runMigration env2 cfg2 mt2 handler2).1 = some (MErr.mountFailed src2)) ∧
    (∃ src3, (runMigration env3 cfg3 mt3 handler3).1 =
      some (MErr.makeReadOnlyFailed src3)) := by
  refine ⟨?_, ?_, ?_⟩
  · obtain ⟨convEvs, src, hbody⟩ :=
      migrationBody_disk_success env cfg mt handler env.tempPath hmt hconv h6 h7 h8
    refine ⟨[Event.lockOSThread, Event.unshare, Event.mountPrivateRec,
      Event.mkdirTemp env.tempPath] ++ convEvs, src, ?_, ?_⟩
    · rw [runMigration_trace_shape env cfg mt handler h1 h2 h3, hbody]
      simp
    · intro fs0
      have hsplit :
          ([Event.lockOSThread, Event.unshare, Event.mountPrivateRec,
            Event.mkdirTemp env.tempPath] ++ convEvs)
            ++ [Event.writeFile (env.tempPath ++ [rootImageFile]),
              Event.bindMount src (env.tempPath ++ [rootImageFile]),
              Event.remountReadOnly (env.tempPath ++ [rootImageFile])] =
          (([Event.lockOSThread, Event.unshare, Event.mountPrivateRec,
            Event.mkdirTemp env.tempPath] ++ convEvs)
            ++ [Event.writeFile (env.tempPath ++ [rootImageFile])])
            ++ [Event.bindMount src (env.tempPath ++ [rootImageFile]),
              Event.remountReadOnly (env.tempPath ++ [rootImageFile])] := by
        simp
      rw [hsplit]
      rw [applyEvents, List.foldl_append]
      exact writeOk_after_bind_ro _ src (env.tempPath ++ [rootImageFile])
  · rw [runMigration_trace_shape env2 cfg2 mt2 handler2 g1 g2 g3,
      migrationBody_disk env2 cfg2 mt2 handler2 env2.tempPath gmt]
    by_cases hq : env2.contentExt = ".qcow2" ∨ env2.contentExt = ".vmdk"
    · obtain ⟨htool, hok⟩ := gconv hq
      rw [diskConversion_conv_shape env2 env2.tempPath cfg2.sourcePath hq htool]
      refine ⟨renderPath (env2.tempPath ++ [convertedImageFile]), ?_⟩
      simp [hok, vmMountSteps, g6, g7]
    · have hd : diskConversion env2 env2.tempPath cfg2.sourcePath [] =
          (none, [], cfg2.sourcePath) := by
        simp [diskConversion, hq]
      rw [hd]
      refine ⟨cfg2.sourcePath, ?_⟩
      simp [vmMountSteps, g6, g7]
  · rw [runMigration_trace_shape env3 cfg3 mt3 handler3 k1 k2 k3,
      migrationBody_disk env3 cfg3 mt3 handler3 env3.tempPath kmt]
    by_cases hq : env3.contentExt = ".qcow2" ∨ env3.contentExt = ".vmdk"
    · obtain ⟨htool, hok⟩ := kconv hq
      rw [diskConversion_conv_shape env3 env3.tempPath cfg3.sourcePath hq htool]
      refine ⟨renderPath (env3.tempPath ++ [convertedImageFile]), ?_⟩
      simp [hok, vmMountSteps, k6, k7, k8]
    · have hd : diskConversion env3 env3.tempPath cfg3.sourcePath [] =
          (none, [], cfg3.sourcePath) := by
        simp [diskConversion, hq]
      rw [hd]
      refine ⟨cfg3.sourcePath, ?_⟩
      simp [vmMountSteps, k6, k7, k8]

/-- Witness for C6: a successful qcow2 VM run, a failing bind mount and
a failing read-only remount, at concrete inputs. -/
theorem c6_root_image_read_only_witness :
    (∃ evs src,
      (runMigration
        { tempPath := ["tmp", "m"], contentExt := ".qcow2",
          convCmd := ["qemu-img", "convert"] }
        { sourcePath := "/img/disk.qcow2" } MigrationType.vm
        (fun _ => (none, []))).2.1 =
        evs ++ [Event.writeFile (["tmp", "m"] ++ [rootImageFile]),
          Event.bindMount src (["tmp", "m"] ++ [rootImageFile]),
          Event.remountReadOnly (["tmp", "m"] ++ [rootImageFile]),
          Event.handlerCall ["tmp", "m"]] ++ cleanupEvents ["tmp", "m"] ∧
      ∀ fs0 : FS,
        FS.writeOk
          (applyEvents fs0
            (evs ++ [Event.writeFile (["tmp", "m"] ++ [rootImageFile]),
              Event.bindMount src (["tmp", "m"] ++ [rootImageFile]),
              Event.remountReadOnly (["tmp", "m"] ++ [rootImageFile])]))
          (["tmp", "m"] ++ [rootImageFile]) = false) ∧
    (∃ src2,
      (runMigration { tempPath := ["tmp", "m"], bindMountOk := false }
        { sourcePath := "/dev/sda" } MigrationType.volumeBlock
        (fun _ => (none, []))).1 = some (MErr.mountFailed src2)) ∧
    (∃ src3,
      (runMigration { tempPath := ["tmp", "m"], remountOk := false }
        { sourcePath := "/dev/sda" } MigrationType.volumeBlock
        (fun _ => (none, []))).1 = some (MErr.makeReadOnlyFailed src3)) :=
  c6_root_image_read_only
    { tempPath := ["tmp", "m"], contentExt := ".qcow2", convCmd := ["qemu-img", "convert"] }
    { tempPath := ["tmp", "m"], bindMountOk := false }
    { tempPath := ["tmp", "m"], remountOk := false }
    { sourcePath := "/img/disk.qcow2" } { sourcePath := "/dev/sda" }
    { sourcePath := "/dev/sda" }
    MigrationType.vm MigrationType.volumeBlock MigrationType.volumeBlock
    (fun _ => (none, [])) (fun _ => (none, [])) (fun _ => (none, []))
    (Or.inl rfl) rfl rfl rfl (fun _ => ⟨rfl, rfl⟩) rfl rfl rfl
    (Or.inr rfl) rfl rfl rfl (fun h => absurd h (by decide)) rfl rfl
    (Or.inr rfl) rfl rfl rfl (fun h => absurd h (by decide)) rfl rfl rfl

theorem isUnder_append_right : ∀ (t l : FsPath), isUnder t (t ++ l) = true := by
  intro t
  induction t with
  | nil => intro l; cases l <;> rfl
  | cons a as ih => intro l; simp [isUnder, ih]

theorem append_singleton_ne (t : FsPath) (x : String) : t ++ [x] ≠ t := by
  intro h
  have hlen := congrArg List.length h
  simp at hlen

/-- Events the disk branch can emit: they only create the converted
image, the `root.img` placeholder and its (possibly read-only) mount,
or call the handler. -/
def vmShaped (t : FsPath) (e : Event) : Prop :=
  (∃ argv, e = Event.runConverter argv (t ++ [convertedImageFile])) ∨
  e = Event.writeFile (t ++ [rootImageFile]) ∨
  (∃ s, e = Event.bindMount s (t ++ [rootImageFile])) ∨
  e = Event.remountReadOnly (t ++ [rootImageFile]) ∨
  (∃ p, e = Event.handlerCall p)

theorem vmShaped_diskConversion (env : Env) (t : FsPath) (s : String)
    (cf : List FsPath) :
    ∀ e ∈ (diskConversion env t s cf).2.1, vmShaped t e := by
  unfold diskConversion
  split_ifs <;> intro e he <;> simp at he <;>
    subst he <;> exact Or.inl ⟨_, rfl⟩

theorem vmShaped_vmMountSteps (env : Env) (t : FsPath) (s : String) :
    ∀ e ∈ (vmMountSteps env t s).2, vmShaped t e := by
  have hwf : vmShaped t (Event.writeFile (t ++ [rootImageFile])) := Or.inr (Or.inl rfl)
  have hbind : vmShaped t (Event.bindMount s (t ++ [rootImageFile])) :=
    Or.inr (Or.inr (Or.inl ⟨s, rfl⟩))
  have hro : vmShaped t (Event.remountReadOnly (t ++ [rootImageFile])) :=
    Or.inr (Or.inr (Or.inr (Or.inl rfl)))
  unfold vmMountSteps
  split_ifs <;> intro e he <;> simp at he
  · rcases he with rfl | rfl | rfl <;> assumption
  · rcases he with rfl | rfl <;> assumption
  · subst he; assumption

theorem vmShaped_migrationBody (env : Env) (cfg : cmdMigrateData) (mt : MigrationType)
    (handler : FsPath → Option MErr × List RemoteCall) (t : FsPath)
    (hmt : mt = MigrationType.vm ∨ mt = MigrationType.volumeBlock) :
    ∀ e ∈ (migrationBody env cfg mt handler t).2.1, vmShaped t e := by
  intro e he
  rw [migrationBody_disk env cfg mt handler t hmt] at he
  dsimp only [] at he
  split at he
  · exact vmShaped_diskConversion env t cfg.sourcePath [] e he
  · split at he
    · rcases List.mem_append.mp he with he2 | he2
      · exact vmShaped_diskConversion env t cfg.sourcePath [] e he2
      · exact vmShaped_vmMountSteps env t _ e he2
    · rcases List.mem_append.mp he with he2 | he2
      · rcases List.mem_append.mp he2 with he3 | he3
        · exact vmShaped_diskConversion env t cfg.sourcePath [] e he3
        · exact vmShaped_vmMountSteps env t _ e he3
      · rw [List.mem_singleton.mp he2]
        exact Or.inr (Or.inr (Or.inr (Or.inr ⟨t, rfl⟩)))

/-- Invariant of the disk branch relative to the initial filesystem:
the only directory added is the temporary root, the only files possibly
added are the converted image and the placeholder, and every mount is
either at `root.img` or was already present. -/
def vmInv (fs0 : FS) (t : FsPath) (fs : FS) : Prop :=
  fs.dirs = t :: fs0.dirs ∧
  (∀ f ∈ fs.files,
    f = t ++ [convertedImageFile] ∨ f = t ++ [rootImageFile] ∨ f ∈ fs0.files) ∧
  (∀ m ∈ fs.mounts, m.1 = t ++ [rootImageFile] ∨ ∃ b, (m.1, b) ∈ fs0.mounts)

theorem vmInv_step (fs0 : FS) (t : FsPath) (fs : FS) (e : Event)
    (hs : vmShaped t e) (hinv : vmInv fs0 t fs) : vmInv fs0 t (applyEvent fs e) := by
  obtain ⟨hd, hf, hm⟩ := hinv
  rcases hs with ⟨argv, rfl⟩ | rfl | ⟨s, rfl⟩ | rfl | ⟨p, rfl⟩
  · refine ⟨hd, ?_, hm⟩
    intro f hf2
    rcases List.mem_cons.mp hf2 with rfl | hf3
    · exact Or.inl rfl
    · exact hf f hf3
  · refine ⟨hd, ?_, hm⟩
    intro f hf2
    rcases List.mem_cons.mp hf2 with rfl | hf3
    · exact Or.inr (Or.inl rfl)
    · exact hf f hf3
  · refine ⟨hd, hf, ?_⟩
    intro m hm2
    rcases List.mem_cons.mp hm2 with rfl | hm3
    · exact Or.inl rfl
    · exact hm m hm3
  · refine ⟨hd, hf, ?_⟩
    intro m hm2
    simp only [applyEvent, List.mem_map] at hm2
    obtain ⟨m0, hm0, hmap⟩ := hm2
    by_cases hcase : m0.1 = t ++ [rootImageFile]
    · rw [← hmap, if_pos hcase]
      exact Or.inl hcase
    · rw [← hmap, if_neg hcase]
      exact hm m0 hm0
  · exact ⟨hd, hf, hm⟩

theorem vmInv_steps (fs0 : FS) (t : FsPath) :
    ∀ (evs : List Event) (fs : FS), (∀ e ∈ evs, vmShaped t e) → vmInv fs0 t fs →
      vmInv fs0 t (applyEvents fs evs) := by
  intro evs
  induction evs with
  | nil => intro fs _ hinv; exact hinv
  | cons e rest ih =>
    intro fs hall hinv
    simp only [applyEvents, List.foldl_cons]
    exact ih (applyEvent fs e)
      (fun e2 he2 => hall e2 (List.mem_cons_of_mem e he2))
      (vmInv_step fs0 t fs e (hall e (List.mem_cons_self e rest)) hinv)

/-- `os.Remove` of a path that is neither a directory nor a mount
target leaves directories and mounts alone and only ever deletes the
file at that path. -/
theorem applyEvent_remove_nondir (fs : FS) (p : FsPath)
    (hnm : fs.isMountTarget p = false) (hnd : p ∉ fs.dirs) :
    (applyEvent fs (Event.remove p)).dirs = fs.dirs ∧
    (applyEvent fs (Event.remove p)).mounts = fs.mounts ∧
    (∀ f ∈ (applyEvent fs (Event.remove p)).files, f ∈ fs.files ∧ f ≠ p) := by
  have hnm2 : ¬ (fs.isMountTarget p = true) := by simp [hnm]
  simp only [applyEvent]
  by_cases hcf : fs.files.contains p = true
  · rw [if_pos hcf, if_neg hnm2]
    refine ⟨rfl, rfl, ?_⟩
    intro f hf2
    have h5 := List.mem_filter.mp hf2
    exact ⟨h5.1, by simpa using h5.2⟩
  · rw [if_neg hcf]
    have hcd : ¬ (fs.dirs.contains p = true) := fun hcon => hnd (List.elem_iff.mp hcon)
    rw [if_neg hcd]
    refine ⟨rfl, rfl, ?_⟩
    intro f hf2
    refine ⟨hf2, ?_⟩
    rintro rfl
    exact hcf (List.elem_iff.mpr hf2)

/-- `os.Remove` of an existing, empty, unmounted directory removes
exactly that directory and leaves mounts alone. -/
theorem applyEvent_remove_dir (fs : FS) (p : FsPath)
    (hfile : p ∉ fs.files) (hdir : p ∈ fs.dirs)
    (hnm : fs.isMountTarget p = false) (hnc : fs.hasStrictChild p = false) :
    (applyEvent fs (Event.remove p)).dirs = fs.dirs.filter (fun q => q != p) ∧
    (applyEvent fs (Event.remove p)).mounts = fs.mounts := by
  have hcf : ¬ (fs.files.contains p = true) := fun hcon => hfile (List.elem_iff.mp hcon)
  simp only [applyEvent]
  rw [if_neg hcf, if_pos (show fs.dirs.contains p = true from List.elem_iff.mpr hdir),
    if_neg (show ¬ ((fs.isMountTarget p || fs.hasStrictChild p) = true) by
      simp [hnm, hnc])]
  exact ⟨rfl, rfl⟩

/-- Running the deferred cleanup from any state the disk branch can
produce leaves no mount under the temporary root and removes the
temporary root itself. -/
theorem cleanup_after_vmInv (fs0 : FS) (t : FsPath) (fs : FS)
    (hfresh : freshFor fs0 t) (hinv : vmInv fs0 t fs) :
    FS.mountsUnder (applyEvents fs (cleanupEvents t)) t = [] ∧
    t ∉ (applyEvents fs (cleanupEvents t)).dirs := by
  obtain ⟨hfd, hff, hfm⟩ := hfresh
  obtain ⟨hd, hf, hm⟩ := hinv
  have hrw : applyEvents fs (cleanupEvents t) =
      applyEvent (applyEvent (applyEvent (applyEvent (applyEvent fs
        (Event.unmountDetach t)) (Event.unmountDetach (t ++ [rootImageFile])))
        (Event.remove (t ++ [convertedImageFile])))
        (Event.remove (t ++ [rootImageFile]))) (Event.remove t) := rfl
  rw [hrw]
  set fsB := applyEvent (applyEvent fs (Event.unmountDetach t))
    (Event.unmountDetach (t ++ [rootImageFile])) with hfsB
  have hBd : fsB.dirs = t :: fs0.dirs := hd
  have hBf : ∀ f ∈ fsB.files,
      f = t ++ [convertedImageFile] ∨ f = t ++ [rootImageFile] ∨ f ∈ fs0.files := hf
  have hBm : ∀ m ∈ fsB.mounts, isUnder t m.1 = false := by
    intro m hm2
    have hm3 : m ∈ fs.mounts ∧ (m.1 != t ++ [rootImageFile]) = true := by
      have h4 := List.mem_filter.mp hm2
      exact ⟨(List.mem_filter.mp h4.1).1, h4.2⟩
    rcases hm m hm3.1 with hq | ⟨b, hb⟩
    · exact absurd hq (by simpa using hm3.2)
    · exact hfm (m.1, b) hb
  -- remove the converted image
  have hCstep := applyEvent_remove_nondir fsB (t ++ [convertedImageFile])
    (by
      rw [FS.isMountTarget, List.any_eq_false]
      intro m hm2
      simp only [beq_iff_eq]
      intro hq
      have := hBm m hm2
      rw [hq, isUnder_append_right] at this
      cases this)
    (by
      rw [hBd]
      intro hmem
      rcases List.mem_cons.mp hmem with hq | hq
      · exact append_singleton_ne t convertedImageFile hq
      · have := hfd _ hq
        rw [isUnder_append_right] at this
        cases this)
  set fsC := applyEvent fsB (Event.remove (t ++ [convertedImageFile])) with hfsC
  have hCd : fsC.dirs = t :: fs0.dirs := by rw [hCstep.1, hBd]
  have hCm : ∀ m ∈ fsC.mounts, isUnder t m.1 = false := by
    intro m hm2
    rw [hCstep.2.1] at hm2
    exact hBm m hm2
  -- remove the placeholder
  have hDstep := applyEvent_remove_nondir fsC (t ++ [rootImageFile])
    (by
      rw [FS.isMountTarget, List.any_eq_false]
      intro m hm2
      simp only [beq_iff_eq]
      intro hq
      have := hCm m hm2
      rw [hq, isUnder_append_right] at this
      cases this)
    (by
      rw [hCd]
      intro hmem
      rcases List.mem_cons.mp hmem with hq | hq
      · exact append_singleton_ne t rootImageFile hq
      · have := hfd _ hq
        rw [isUnder_append_right] at this
        cases this)
  set fsD := applyEvent fsC (Event.remove (t ++ [rootImageFile])) with hfsD
  have hDd : fsD.dirs = t :: fs0.dirs := by rw [hDstep.1, hCd]
  have hDm : ∀ m ∈ fsD.mounts, isUnder t m.1 = false := by
    intro m hm2
    rw [hDstep.2.1] at hm2
    exact hCm m hm2
  have hDf : ∀ f ∈ fsD.files, f ∈ fs0.files := by
    intro f hf2
    obtain ⟨hf3, hne2⟩ := hDstep.2.2 f hf2
    obtain ⟨hf4, hne1⟩ := hCstep.2.2 f hf3
    rcases hBf f hf4 with hq | hq | hq
    · exact absurd hq hne1
    · exact absurd hq hne2
    · exact hq
  -- remove the temporary root itself
  have hEstep := applyEvent_remove_dir fsD t
    (by
      intro hmem
      have := hff t (hDf t hmem)
      rw [isUnder_refl] at this
      cases this)
    (by rw [hDd]; exact List.mem_cons_self t fs0.dirs)
    (by
      rw [FS.isMountTarget, List.any_eq_false]
      intro m hm2
      simp only [beq_iff_eq]
      intro hq
      have := hDm m hm2
      rw [hq, isUnder_refl] at this
      cases this)
    (by
      rw [FS.hasStrictChild]
      have hleft : ((fsD.dirs ++ fsD.files).any
          (fun q => isUnder t q && q != t)) = false := by
        rw [List.any_eq_false]
        intro q hq
        rcases List.mem_append.mp hq with hq2 | hq2
        · rw [hDd] at hq2
          rcases List.mem_cons.mp hq2 with rfl | hq3
          · simp
          · have := hfd _ hq3
            simp [this]
        · have := hff _ (hDf _ hq2)
          simp [this]
      have hright : (fsD.mounts.any
          (fun m => isUnder t m.1 && m.1 != t)) = false := by
        rw [List.any_eq_false]
        intro m hm2
        have := hDm m hm2
        simp [this]
      rw [hleft, hright]
      rfl)
  constructor
  · rw [FS.mountsUnder, hEstep.2, List.filter_eq_nil_iff]
    intro m hm2
    simp only [Bool.not_eq_true]
    exact hDm m hm2
  · rw [hEstep.1]
    intro hmem
    have := (List.mem_filter.mp hmem).2
    simp at this

/-- C2 counterexample: a successful container migration with primary
source path `/src`.  The deferred cleanup runs (and ignores failures),
yet afterwards a bind mount created by the source tree builder is still
attached beneath the temporary root and the temporary root directory
still exists — `unix.Unmount` is only attempted on the temporary root
and on `root.img`, never on the mounts under `rootfs`, and
`os.Remove` of the non-empty temporary root fails and is ignored.  So
"zero mounts remain under the temporary root and the temporary root no
longer exists afterward" is false for this run. -/
theorem c2_cleanup_counterexample :
    (runMigration { tempPath := ["tmp", "m"] } { sourcePath := "/src" }
      MigrationType.container (fun _ => (none, []))).1 = none ∧
    FS.mountsUnder
      (applyEvents { dirs := [], files := [], mounts := [] }
        ((runMigration { tempPath := ["tmp", "m"] } { sourcePath := "/src" }
          MigrationType.container (fun _ => (none, []))).2.1))
      ["tmp", "m"] ≠ [] ∧
    ["tmp", "m"] ∈
      (applyEvents { dirs := [], files := [], mounts := [] }
        ((runMigration { tempPath := ["tmp", "m"] } { sourcePath := "/src" }
          MigrationType.container (fun _ => (none, []))).2.1)).dirs := by
  refine ⟨rfl, ?_, ?_⟩ <;> decide

/-- C2 amended: for every run that reaches creation of the temporary
root, the five cleanup actions (detach the temporary root and the
`root.img` mount point, remove the converted image, the placeholder and
the temporary root, failures ignored) run before `runMigration`
returns, whatever the branch outcome; and for VM/block-volume
migrations — though not for container/filesystem ones, whose `rootfs`
mounts the cleanup does not detach — zero mounts remain under the
temporary root and the temporary root no longer exists afterward. -/
theorem c2_cleanup_amended (env : Env) (cfg : cmdMigrateData) (mt : MigrationType)
    (handler : FsPath → Option MErr × List RemoteCall)
    (h1 : env.unshareOk = true) (h2 : env.mountPrivateOk = true)
    (h3 : env.mkdirTempOk = true) :
    (∃ body, (runMigration env cfg mt handler).2.1 =
      [Event.lockOSThread, Event.unshare, Event.mountPrivateRec,
        Event.mkdirTemp env.tempPath] ++ body ++ cleanupEvents env.tempPath) ∧
    ((mt = MigrationType.vm ∨ mt = MigrationType.volumeBlock) →
      ∀ fs0 : FS, freshFor fs0 env.tempPath →
        FS.mountsUnder
          (applyEvents fs0 (runMigration env cfg mt handler).2.1) env.tempPath = [] ∧
        env.tempPath ∉
          (applyEvents fs0 (runMigration env cfg mt handler).2.1).dirs) := by
  constructor
  · refine ⟨(migrationBody env cfg mt handler env.tempPath).2.1, ?_⟩
    rw [runMigration_trace_shape env cfg mt handler h1 h2 h3]
  · intro hmt fs0 hfresh
    rw [runMigration_trace_shape env cfg mt handler h1 h2 h3]
    have hsplit :
        applyEvents fs0
          ([Event.lockOSThread, Event.unshare, Event.mountPrivateRec,
            Event.mkdirTemp env.tempPath]
            ++ (migrationBody env cfg mt handler env.tempPath).2.1
            ++ cleanupEvents env.tempPath) =
        applyEvents
          (applyEvents
            (applyEvents fs0
              [Event.lockOSThread, Event.unshare, Event.mountPrivateRec,
                Event.mkdirTemp env.tempPath])
            (migrationBody env cfg mt handler env.tempPath).2.1)
          (cleanupEvents env.tempPath) := by
      simp [applyEvents, List.foldl_append]
    rw [hsplit]
    have hbase : vmInv fs0 env.tempPath
        (applyEvents fs0
          [Event.lockOSThread, Event.unshare, Event.mountPrivateRec,
            Event.mkdirTemp env.tempPath]) := by
      refine ⟨rfl, ?_, ?_⟩
      · intro f hf2
        exact Or.inr (Or.inr hf2)
      · intro m hm2
        exact Or.inr ⟨m.2, hm2⟩
    have hinv2 := vmInv_steps fs0 env.tempPath
      (migrationBody env cfg mt handler env.tempPath).2.1 _
      (vmShaped_migrationBody env cfg mt handler env.tempPath hmt) hbase
    exact cleanup_after_vmInv fs0 env.tempPath _ hfresh hinv2

/-- Witness for the amended C2 at a concrete successful qcow2 VM run
from the empty filesystem. -/
theorem c2_cleanup_amended_witness :
    (∃ body, (runMigration
      { tempPath := ["tmp", "m"], contentExt := ".qcow2",
        convCmd := ["qemu-img", "convert"] }
      { sourcePath := "/img/disk.qcow2" } MigrationType.vm
      (fun _ => (none, []))).2.1 =
      [Event.lockOSThread, Event.unshare, Event.mountPrivateRec,
        Event.mkdirTemp ["tmp", "m"]] ++ body ++ cleanupEvents ["tmp", "m"]) ∧
    ((MigrationType.vm = MigrationType.vm ∨ MigrationType.vm = MigrationType.volumeBlock) →
      ∀ fs0 : FS, freshFor fs0 ["tmp", "m"] →
        FS.mountsUnder
          (applyEvents fs0 ((runMigration
            { tempPath := ["tmp", "m"], contentExt := ".qcow2",
              convCmd := ["qemu-img", "convert"] }
            { sourcePath := "/img/disk.qcow2" } MigrationType.vm
            (fun _ => (none, []))).2.1)) ["tmp", "m"] = [] ∧
        (["tmp", "m"] : FsPath) ∉
          (applyEvents fs0 ((runMigration
            { tempPath := ["tmp", "m"], contentExt := ".qcow2",
              convCmd := ["qemu-img", "convert"] }
            { sourcePath := "/img/disk.qcow2" } MigrationType.vm
            (fun _ => (none, []))).2.1)).dirs) :=
  c2_cleanup_amended
    { tempPath := ["tmp", "m"], contentExt := ".qcow2",
      convCmd := ["qemu-img", "convert"] }
    { sourcePath := "/img/disk.qcow2" } MigrationType.vm (fun _ => (none, []))
    rfl rfl rfl

end IncusMigrate
